import Mathlib

/-!
Shallow embedding of the HoyaList lead server (server.js and its second,
unnamed variant): the lead validation pipeline, the geocoder client, the
lead persister and the /go redirect resolver, together with theorems that
settle the specification claims about them.

Machine conventions of the embedding: JS strings are Lean String values
handled as character lists; JS numbers that the code only passes through
(latitude, longitude) are Int; parseInt on a nonempty digit string is the
exact Nat value (the code never exceeds the double precision range in the
validated paths); form fields that may be absent from the request body are
Option String.
-/

namespace HoyaList

set_option maxRecDepth 8192

/-- JS white space: the characters matched by the regex class backslash-s
and removed by String.prototype.trim. -/
def isJsSpace (c : Char) : Bool :=
  c == ' ' || c == '\t' || c == '\n' || c == '\r' ||
  c.toNat == 0xb || c.toNat == 0xc ||
  c.toNat == 0xa0 || c.toNat == 0x1680 ||
  (decide (0x2000 ≤ c.toNat) && decide (c.toNat ≤ 0x200a)) ||
  c.toNat == 0x2028 || c.toNat == 0x2029 || c.toNat == 0x202f ||
  c.toNat == 0x205f || c.toNat == 0x3000 || c.toNat == 0xfeff

/-- JS String.prototype.trim: drop JS white space from both ends. -/
def jsTrim (s : String) : String :=
  String.mk (((s.toList.dropWhile isJsSpace).reverse.dropWhile isJsSpace).reverse)

/-- JS String.prototype.toLowerCase, restricted to the ASCII case mapping
(the only case mapping the embedded fields and user agents exercise). -/
def jsLower (s : String) : String := String.mk (s.toList.map Char.toLower)

/-- JS substring containment, ual.includes(needle). -/
def jsIncludes (hay needle : String) : Bool :=
  (List.range (hay.toList.length + 1)).any fun i =>
    needle.toList.isPrefixOf (hay.toList.drop i)

/-- Characters admitted by the regex class excluding white space and the
at sign, written caret-backslash-s-at inside brackets in the source. -/
def notSpAt (c : Char) : Bool := !(isJsSpace c) && c != '@'

/-- Matching of the email pattern of isValidEmail, server.js line 41:
start, one or more non-space-non-at, at sign, one or more
non-space-non-at, dot, two or more non-space-non-at, end (the i flag is
irrelevant since the pattern contains no letters).  A list matches exactly
when it splits as A ++ at ++ B ++ dot ++ C with A and B nonempty, C of
length at least two, and A, B, C drawn from the class above; the split is
searched over the position i of the at sign and the position j of the
matched dot. -/
def emailRegexMatch (l : List Char) : Bool :=
  (List.range l.length).any fun i =>
    (List.range l.length).any fun j =>
      decide (1 ≤ i) && decide (i + 2 ≤ j) && decide (j + 3 ≤ l.length) &&
      (l.get? i == some '@') && (l.get? j == some '.') &&
      (l.take i).all notSpAt &&
      ((l.drop (i + 1)).take (j - i - 1)).all notSpAt &&
      (l.drop (j + 1)).all notSpAt

/-- isValidEmail from server.js lines 40 to 42. -/
def isValidEmail (email : String) : Bool := emailRegexMatch email.toList

/-- The ZIP pattern of server.js line 165: exactly five decimal digits. -/
def zipRegexMatch (s : String) : Bool :=
  s.toList.length == 5 && s.toList.all Char.isDigit

/-- The E.164 pattern of server.js line 176: a plus sign, a digit one to
nine, then nine to fourteen further digits. -/
def e164Match (s : String) : Bool :=
  match s.toList with
  | '+' :: c :: rest =>
      decide ('1' ≤ c) && decide (c ≤ '9') && rest.all Char.isDigit &&
      decide (9 ≤ rest.length) && decide (rest.length ≤ 14)
  | _ => false

/-- rawBudget.replace of all non-digits by nothing, server.js line 132. -/
def digitsOnly (s : String) : String := String.mk (s.toList.filter Char.isDigit)

/-- parseInt base ten on a digit string (never NaN when nonempty). -/
def parseDigits (s : String) : Nat :=
  s.toList.foldl (fun n c => n * 10 + (c.toNat - '0'.toNat)) 0

/-- The URL-encoded fields of a POST /lead body; a field that the client
did not submit is none. -/
structure RawForm where
  name : Option String
  email : Option String
  phone : Option String
  project : Option String
  zip : Option String
  readyToHire : Option String
  urgent : Option String
  budgetText : Option String
  concent : Option String
deriving DecidableEq

/-- String of x or-else the empty string: absent fields coerce to the
empty string, present fields pass through. -/
def strOr (o : Option String) : String := o.getD ""

/-- The normalized candidate record built at server.js lines 120 to 136. -/
structure NormLead where
  name : String
  email : String
  rawPhone : String
  project : String
  zip : String
  readyToHire : Bool
  urgent : Bool
  rawBudget : String
  budgetDigits : String
  budgetNumber : Option Nat
  consent : Bool
deriving DecidableEq

/-- Input normalization, server.js lines 120 to 136: coerce to string,
trim, lower-case the email, compare the checkbox fields against the
literal string yes, and extract the budget digits. -/
def normalizeForm (f : RawForm) : NormLead :=
  let rawBudget := jsTrim (strOr f.budgetText)
  let budgetDigits := if rawBudget != "" then digitsOnly rawBudget else ""
  { name := jsTrim (strOr f.name)
    email := jsLower (jsTrim (strOr f.email))
    rawPhone := jsTrim (strOr f.phone)
    project := jsTrim (strOr f.project)
    zip := jsTrim (strOr f.zip)
    readyToHire := f.readyToHire == some "yes"
    urgent := f.urgent == some "yes"
    rawBudget := rawBudget
    budgetDigits := budgetDigits
    budgetNumber := if budgetDigits != "" then some (parseDigits budgetDigits) else none
    consent := f.concent == some "yes" }

/-- The six validation rejection kinds, one per 400 branch of POST /lead,
in source order. -/
inductive ErrKind where
  | missingRequired
  | invalidEmail
  | consentRequired
  | invalidZip
  | invalidPhone
  | invalidBudget
deriving DecidableEq

/-- The validated lead that reaches persistence. -/
structure ValidLead where
  name : String
  email : String
  phone : String
  project : String
  zip : String
  readyToHire : Bool
  urgent : Bool
  consent : Bool
  budget : Option Nat
deriving DecidableEq

deriving instance DecidableEq for Except

/-- The check chain of POST /lead, server.js lines 139 to 195, on the
normalized record: the six checks in source order, stopping at the first
failure.  The isNaN guard of the budget check is omitted because parseInt
of a nonempty digit string is never NaN; the negativity guard is kept
verbatim (it is vacuous on Nat exactly as it is on a digits-only parse). -/
def validateNorm (n : NormLead) : Except ErrKind ValidLead :=
  if n.name == "" || n.email == "" || n.project == "" || n.zip == "" then
    .error .missingRequired
  else if !(isValidEmail n.email) then .error .invalidEmail
  else if !n.consent then .error .consentRequired
  else if !(zipRegexMatch n.zip) then .error .invalidZip
  else if n.rawPhone != "" && !(e164Match n.rawPhone) then .error .invalidPhone
  else if n.rawBudget != "" &&
      (n.budgetDigits == "" ||
        (match n.budgetNumber with
          | some b => decide (b < 0)
          | none => false)) then .error .invalidBudget
  else
    .ok { name := n.name, email := n.email
          phone := if n.rawPhone != "" then n.rawPhone else ""
          project := n.project, zip := n.zip
          readyToHire := n.readyToHire, urgent := n.urgent
          consent := n.consent, budget := n.budgetNumber }

/-- The full validation stage of POST /lead: normalize, then check. -/
def validateLead (f : RawForm) : Except ErrKind ValidLead :=
  validateNorm (normalizeForm f)

/-- One address component of a geocoder result; the types list may be
absent (the code guards it with or-else empty list). -/
structure AddrComp where
  types : Option (List String)
  long_name : String
  short_name : String
deriving DecidableEq

/-- The location object of a geocoder result; a coordinate is some value
exactly when its typeof is number in the upstream JSON. -/
structure GeoLocation where
  lat : Option Int
  lng : Option Int
deriving DecidableEq

/-- The geometry object, whose location may be absent. -/
structure GeoGeometry where
  location : Option GeoLocation
deriving DecidableEq

/-- One element of the results array of the geocoder response. -/
structure GeoApiResult where
  geometry : Option GeoGeometry
  address_components : Option (List AddrComp)
deriving DecidableEq

/-- The parsed JSON body of the geocoder response. -/
structure GeoBody where
  status : String
  results : List GeoApiResult
deriving DecidableEq

/-- The transport-level outcome of the fetch call. -/
structure FetchResp where
  ok : Bool
  status : Nat
  body : GeoBody
deriving DecidableEq

/-- The four throw sites of geocodeZipWithGoogle, server.js lines 44 to 66. -/
inductive GeoErr where
  | missingKey
  | httpError (status : Nat)
  | lookupFailed (status : String)
  | invalidLatLng
deriving DecidableEq

/-- The value returned by geocodeZipWithGoogle on success. -/
structure GeoResult where
  latitude : Int
  longitude : Int
  userTown : String
  userState : String
deriving DecidableEq

/-- The first scan loop of server.js lines 71 to 75: walk the address
components in order, overwriting the town with each long name typed
locality and the state with each short name typed
administrative_area_level_1, starting from empty strings. -/
def scanTownState (comps : List AddrComp) : String × String :=
  comps.foldl
    (fun acc c =>
      let ts := c.types.getD []
      ((if ts.contains "locality" then c.long_name else acc.1),
       (if ts.contains "administrative_area_level_1" then c.short_name else acc.2)))
    ("", "")

/-- The fallback scan of server.js lines 77 to 82: overwrite the town with
each long name typed postal_town. -/
def scanPostalTown (comps : List AddrComp) : String :=
  comps.foldl
    (fun t c => if (c.types.getD []).contains "postal_town" then c.long_name else t) ""

/-- Town and state extraction: the first scan, then the postal_town scan
when the scanned town is still the empty string (the falsy test of the
source). -/
def extractTownState (comps : List AddrComp) : String × String :=
  let p := scanTownState comps
  (if p.1 == "" then scanPostalTown comps else p.1, p.2)

/-- geocodeZipWithGoogle, server.js lines 44 to 90, as a function of the
configured key and of the fetch outcome.  The first component records
whether the fetch was performed at all; the key test is the falsy test of
the source, so an unset key and an empty key both fail before the fetch. -/
def geocodeZipWithGoogle (key : Option String) (net : FetchResp) :
    Bool × Except GeoErr GeoResult :=
  if strOr key == "" then (false, .error .missingKey)
  else
    (true,
      if !net.ok then .error (.httpError net.status)
      else if net.body.status != "OK" then .error (.lookupFailed net.body.status)
      else
        match net.body.results with
        | [] => .error (.lookupFailed net.body.status)
        | r :: _ =>
          match r.geometry.bind (fun g => g.location) with
          | none => .error .invalidLatLng
          | some loc =>
            match loc.lat, loc.lng with
            | some la, some lo =>
              let ts := extractTownState (r.address_components.getD [])
              .ok { latitude := la, longitude := lo, userTown := ts.1, userState := ts.2 }
            | _, _ => .error .invalidLatLng)

/-- A Firestore field value as this server writes them. -/
inductive JVal where
  | str (s : String)
  | num (n : Int)
  | bool (b : Bool)
  | nullv
  | timestamp
deriving DecidableEq

/-- A document payload: field names paired with values, in set order. -/
abbrev Payload := List (String × JVal)

/-- A collection: document identifiers paired with payloads. -/
abbrev Collection := List (String × Payload)

/-- The PublicUserInfo payload of server.js lines 210 to 224: the budget
field is appended only when a budget number was parsed. -/
def publicPayload (uid : String) (v : ValidLead) : Payload :=
  [("publicUserUID", .str uid),
   ("publicUserName", .str v.name),
   ("publicUserEmail", .str v.email),
   ("publicUserPhone", .str v.phone),
   ("projectText", .str v.project),
   ("readyToHire", .bool v.readyToHire),
   ("urgent", .bool v.urgent),
   ("publicUserConcent", .bool v.consent),
   ("postedDate", .timestamp)] ++
  (match v.budget with
   | some b => [("budgetText", .num b)]
   | none => [])

/-- The PublicUserInfo payload of the second variant, unnamed part_000
lines 195 to 208: the budget field is always present, null when absent. -/
def publicPayloadAlt (uid : String) (v : ValidLead) : Payload :=
  [("publicUserUID", .str uid),
   ("publicUserName", .str v.name),
   ("publicUserEmail", .str v.email),
   ("publicUserPhone", .str v.phone),
   ("projectText", .str v.project),
   ("budgetText", match v.budget with
     | some b => .num b
     | none => .nullv),
   ("readyToHire", .bool v.readyToHire),
   ("urgent", .bool v.urgent),
   ("publicUserConcent", .bool v.consent),
   ("postedDate", .timestamp)]

/-- The UserLocation payload of server.js lines 228 to 239 (the or-else
empty string on town and state is the identity on strings and is folded
in). -/
def locationPayload (uid : String) (v : ValidLead) (g : GeoResult) : Payload :=
  [("uid", .str uid),
   ("name", .str v.name),
   ("contractor", .bool false),
   ("latitude", .num g.latitude),
   ("longitude", .num g.longitude),
   ("altitude", .num 0),
   ("userState", .str g.userState),
   ("userTown", .str g.userTown),
   ("zipcode", .str v.zip),
   ("postedDate", .timestamp)]

/-- The three response classes of POST /lead. -/
inductive LeadResponse where
  | badRequest (kind : ErrKind)
  | serverError
  | success (zip : String)
deriving DecidableEq

/-- HTTP status code of each response class. -/
def statusOf : LeadResponse → Nat
  | .badRequest _ => 400
  | .serverError => 500
  | .success _ => 200

/-- The POST /lead handler, server.js lines 117 to 260: validate, geocode,
then commit the two documents as one batch.  The uid argument is the fresh
document identifier the store allocates for the PublicUserInfo reference;
commitOk is the outcome of the batch commit, which the store applies
atomically, so a failed commit writes neither document; any throw from the
geocode call or the commit lands in the catch block that answers 500 with
the generic retry fragment. -/
def leadHandler (f : RawForm) (key : Option String) (net : FetchResp)
    (uid : String) (commitOk : Bool) :
    LeadResponse × Collection × Collection :=
  match validateLead f with
  | .error k => (.badRequest k, [], [])
  | .ok v =>
    match (geocodeZipWithGoogle key net).2 with
    | .error _ => (.serverError, [], [])
    | .ok g =>
      if commitOk then
        (.success v.zip, [(uid, publicPayload uid v)], [(uid, locationPayload uid v g)])
      else (.serverError, [], [])

/-- Hexadecimal digit for percent escaping, upper case. -/
def hexDigitUp (n : Nat) : Char :=
  if n < 10 then Char.ofNat ('0'.toNat + n) else Char.ofNat ('A'.toNat + n - 10)

/-- UTF-8 bytes of one code point. -/
def utf8Bytes (n : Nat) : List Nat :=
  if n < 0x80 then [n]
  else if n < 0x800 then [0xC0 + n / 0x40, 0x80 + n % 0x40]
  else if n < 0x10000 then
    [0xE0 + n / 0x1000, 0x80 + (n / 0x40) % 0x40, 0x80 + n % 0x40]
  else
    [0xF0 + n / 0x40000, 0x80 + (n / 0x1000) % 0x40,
     0x80 + (n / 0x40) % 0x40, 0x80 + n % 0x40]

/-- The characters encodeURIComponent leaves as-is: ASCII alphanumerics
and the marks dash, underscore, dot, bang, tilde, star, quote (code 39)
and parentheses. -/
def uriUnreserved (c : Char) : Bool :=
  c.isAlphanum || ("-_.!~*()".toList.contains c) || c.toNat == 39

/-- encodeURIComponent: unreserved characters pass through, every other
character becomes the percent escapes of its UTF-8 bytes. -/
def encodeURIComponent (s : String) : String :=
  String.mk (s.toList.flatMap fun c =>
    if uriUnreserved c then [c]
    else (utf8Bytes c.toNat).flatMap fun b => ['%', hexDigitUp (b / 16), hexDigitUp (b % 16)])

/-- The Play Store package identifier, PKG in the source. -/
def pkgId : String := "com.hoyalist.hoyalist"

/-- AND_HTTPS of the /go route. -/
def andHttps : String := "https://play.google.com/store/apps/details?id=" ++ pkgId

/-- IOS_HTTPS of the /go route. -/
def iosHttps : String := "https://apps.apple.com/us/app/hoyalist/id6740706168"

/-- AND_INTENT of the /go route: the market intent with the HTTPS store
page as percent-encoded browser fallback. -/
def andIntent : String :=
  "intent://details?id=" ++ pkgId ++
  "#Intent;scheme=market;package=com.android.vending;S.browser_fallback_url=" ++
  encodeURIComponent andHttps ++ ";end;"

/-- IOS_ITMS of the /go route. -/
def iosItms : String := "itms-apps://itunes.apple.com/app/id6740706168"

/-- isAndroid of the /go route, on the lower-cased user agent. -/
def isAndroidUA (ual : String) : Bool := jsIncludes ual "android"

/-- isIOS of the /go route, on the lower-cased user agent. -/
def isIOSUA (ual : String) : Bool :=
  jsIncludes ual "iphone" || jsIncludes ual "ipad" || jsIncludes ual "ipod"

/-- isInApp of the /go route: the nine in-app browser tokens. -/
def isInAppUA (ual : String) : Bool :=
  jsIncludes ual "fban" || jsIncludes ual "fbav" || jsIncludes ual "facebook" ||
  jsIncludes ual "instagram" || jsIncludes ual "tiktok" ||
  jsIncludes ual "twitter" || jsIncludes ual "snapchat" ||
  jsIncludes ual "pinterest" || jsIncludes ual "gsa"

/-- The GET /go redirect resolver, server.js lines 283 to 320: Android
first, then the iOS tokens, else the homeowners fallback; within each
platform the in-app classifier picks the HTTPS store page over the
deep-link scheme. -/
def goRedirect (ua : String) : String :=
  let ual := jsLower ua
  if isAndroidUA ual then
    if !(isInAppUA ual) then andIntent else andHttps
  else if isIOSUA ual then
    if !(isInAppUA ual) then iosItms else iosHttps
  else "/homeowners"

/-!  Specification-side definitions and concrete fixtures.  The following
definitions are written from the words of the specification (they are the
second side of the refinement claims), or are concrete inputs used by
witnesses and counterexamples. -/

/-- Spec reading of the validator contract: the six checks of section 4.2
in their listed order, each paired with its error kind. -/
def orderedChecks (n : NormLead) : List (ErrKind × Bool) :=
  [(.missingRequired, n.name == "" || n.email == "" || n.project == "" || n.zip == ""),
   (.invalidEmail, !(isValidEmail n.email)),
   (.consentRequired, !n.consent),
   (.invalidZip, !(zipRegexMatch n.zip)),
   (.invalidPhone, n.rawPhone != "" && !(e164Match n.rawPhone)),
   (.invalidBudget, n.rawBudget != "" &&
     (n.budgetDigits == "" ||
       (match n.budgetNumber with
         | some b => decide (b < 0)
         | none => false)))]

/-- Spec reading: the kind of the first failing check, if any. -/
def firstFailure (n : NormLead) : Option ErrKind :=
  ((orderedChecks n).find? (fun p => p.2)).map (fun p => p.1)

/-- Spec reading of section 4.1: every field coerced to a string and
trimmed, the email lower-cased, every boolean-like field true exactly when
the raw value is the literal string yes, the budget digits extracted. -/
def normalizeSpec (f : RawForm) : NormLead :=
  let rawBudget := jsTrim (f.budgetText.getD "")
  let budgetDigits := if rawBudget != "" then digitsOnly rawBudget else ""
  { name := jsTrim (f.name.getD "")
    email := jsLower (jsTrim (f.email.getD ""))
    rawPhone := jsTrim (f.phone.getD "")
    project := jsTrim (f.project.getD "")
    zip := jsTrim (f.zip.getD "")
    readyToHire := match f.readyToHire with | some s => s == "yes" | none => false
    urgent := match f.urgent with | some s => s == "yes" | none => false
    rawBudget := rawBudget
    budgetDigits := budgetDigits
    budgetNumber := if budgetDigits != "" then some (parseDigits budgetDigits) else none
    consent := match f.concent with | some s => s == "yes" | none => false }

/-- Spec-side helper for the extraction policy: the long name of the last
component carrying the given type, empty when no component does (the
overwrite scan of the source keeps the last match). -/
def lastLongNameTyped (ty : String) (comps : List AddrComp) : String :=
  match comps.reverse.find? (fun c => (c.types.getD []).contains ty) with
  | some c => c.long_name
  | none => ""

/-- Spec-side helper: the short name of the last component carrying the
given type, empty when no component does. -/
def lastShortNameTyped (ty : String) (comps : List AddrComp) : String :=
  match comps.reverse.find? (fun c => (c.types.getD []).contains ty) with
  | some c => c.short_name
  | none => ""

/-- The domain part of an email: the characters after the last at sign. -/
def domainAfterLastAt (l : List Char) : List Char :=
  (l.reverse.takeWhile (fun c => c != '@')).reverse

/-- First malformation of the email claim: no at sign at all. -/
def noAtSign (l : List Char) : Bool := !(l.contains '@')

/-- Second malformation: an at sign is present, but the domain part has
no dot. -/
def noDomainDot (l : List Char) : Bool :=
  l.contains '@' && !((domainAfterLastAt l).contains '.')

/-- Third malformation exactly as the claim states it: fewer than two
characters follow the final dot. -/
def shortFinalDot (l : List Char) : Bool :=
  l.contains '.' && decide ((l.reverse.takeWhile (fun c => c != '.')).length < 2)

/-- Third malformation, amended: an at sign is present and no dot of the
domain part has at least two characters after it. -/
def allDomainDotsShort (l : List Char) : Bool :=
  l.contains '@' &&
  ((List.range (domainAfterLastAt l).length).all fun j =>
    !((domainAfterLastAt l).get? j == some '.') ||
    decide ((domainAfterLastAt l).length < j + 3))

/-- A raw form that passes every check, the base point of the single-field
claims. -/
def baseForm : RawForm :=
  { name := some "Jane Doe", email := some "jane@example.com"
    phone := some "+18885551234", project := some "remodel kitchen"
    zip := some "06119", readyToHire := some "yes", urgent := some "no"
    budgetText := some "2500", concent := some "yes" }

/-- The validated lead that baseForm produces. -/
def baseLead : ValidLead :=
  { name := "Jane Doe", email := "jane@example.com", phone := "+18885551234"
    project := "remodel kitchen", zip := "06119", readyToHire := true
    urgent := false, consent := true, budget := some 2500 }

/-- The base form with the phone field replaced and no budget. -/
def phoneForm (p : String) : RawForm :=
  { baseForm with phone := some p, budgetText := none }

/-- The lead produced by an accepted phoneForm submission. -/
def phoneLead (ph : String) : ValidLead :=
  { baseLead with phone := ph, budget := none }

/-- The base form with the budget field replaced and no phone. -/
def budgetForm (b : String) : RawForm :=
  { baseForm with budgetText := some b, phone := none }

/-- The lead produced by an accepted budgetForm submission. -/
def budgetLead (bu : Option Nat) : ValidLead :=
  { baseLead with phone := "", budget := bu }

/-- The base form with the email field replaced, no phone and no budget. -/
def emailForm (e : String) : RawForm :=
  { baseForm with email := some e, phone := none, budgetText := none }

/-- The lead produced by an accepted emailForm submission. -/
def emailLead (em : String) : ValidLead :=
  { baseLead with email := em, phone := "", budget := none }

/-- A successful geocoder response for ZIP 06119. -/
def sampleNet : FetchResp :=
  { ok := true, status := 200
    body :=
    { status := "OK"
      results :=
      [{ geometry := some { location := some { lat := some 41, lng := some (-72) } }
         address_components := some
           [{ types := some ["locality", "political"]
              long_name := "West Hartford", short_name := "West Hartford" },
            { types := some ["administrative_area_level_1", "political"]
              long_name := "Connecticut", short_name := "CT" }] }] } }

/-- The GeoResult that sampleNet yields. -/
def sampleGeo : GeoResult :=
  { latitude := 41, longitude := -72
    userTown := "West Hartford", userState := "CT" }

/-- Components with a locality whose long name is empty next to a named
postal town: the input on which the stated extraction policy and the code
diverge. -/
def cexComps : List AddrComp :=
  [{ types := some ["locality"], long_name := "", short_name := "X" },
   { types := some ["postal_town"], long_name := "York", short_name := "Y" }]

/-- A successful geocoder response whose first result carries cexComps. -/
def cexNet : FetchResp :=
  { ok := true, status := 200
    body :=
    { status := "OK"
      results :=
      [{ geometry := some { location := some { lat := some 41, lng := some 1 } }
         address_components := some cexComps }] } }

/-- A geocoder response with no town or region components at all. -/
def bareNet : FetchResp :=
  { ok := true, status := 200
    body :=
    { status := "OK"
      results :=
      [{ geometry := some { location := some { lat := some 5, lng := some 6 } }
         address_components := some [] }] } }

/-- A geocoder response whose first result has a non-numeric latitude. -/
def badCoordNet : FetchResp :=
  { ok := true, status := 200
    body :=
    { status := "OK"
      results :=
      [{ geometry := some { location := some { lat := none, lng := some 3 } }
         address_components := none }] } }

/-- A geocoder response reporting zero results. -/
def emptyNet : FetchResp :=
  { ok := true, status := 200
    body := { status := "ZERO_RESULTS", results := [] } }

/-!  Theorems. -/

/-- The negativity arm of the budget check is vacuous on a digits-only
parse. -/
lemma budget_neg_match_false (o : Option Nat) :
    (match o with
      | some b => decide (b < 0)
      | none => false) = false := by
  cases o <;> simp

/-- The check chain agrees with the ordered first-failure reading of the
validator contract. -/
lemma validateNorm_firstFailure (n : NormLead) :
    match firstFailure n with
    | some k => validateNorm n = .error k
    | none => ∃ v, validateNorm n = .ok v := by
  by_cases h1 : (n.name == "" || n.email == "" || n.project == "" || n.zip == "") = true <;>
  by_cases h2 : isValidEmail n.email = true <;>
  by_cases h3 : n.consent = true <;>
  by_cases h4 : zipRegexMatch n.zip = true <;>
  by_cases h5 : (n.rawPhone != "" && !(e164Match n.rawPhone)) = true <;>
  by_cases h6 : (n.rawBudget != "" && n.budgetDigits == "") = true <;>
  cases hb : n.budgetNumber <;>
  simp [validateNorm, firstFailure, orderedChecks, List.find?, hb,
    h1, h2, h3, h4, h5, h6]

/-- C2: for every normalized candidate record the validator applies the
six checks in the exact order MissingRequired, InvalidEmail,
ConsentRequired, InvalidZip, InvalidPhone, InvalidBudget, stops at the
first failure and returns that check, and in particular a submission with
an empty name and consent false reports MissingRequired rather than
ConsentRequired. -/
theorem validator_order_first_failure :
    (∀ f : RawForm,
      match firstFailure (normalizeForm f) with
      | some k => validateLead f = .error k
      | none => ∃ v, validateLead f = .ok v) ∧
    validateLead { baseForm with name := some "", concent := some "no" } =
      .error .missingRequired := by
  exact ⟨fun f => validateNorm_firstFailure (normalizeForm f), by decide⟩

/-- C10: the normalizer always succeeds and matches the spec description
field for field; each boolean-like field is true exactly when its raw
value is the literal string yes, absence included. -/
theorem normalizer_total_description :
    ∀ f : RawForm,
      normalizeForm f = normalizeSpec f ∧
      ((normalizeForm f).readyToHire = true ↔ f.readyToHire = some "yes") ∧
      ((normalizeForm f).urgent = true ↔ f.urgent = some "yes") ∧
      ((normalizeForm f).consent = true ↔ f.concent = some "yes") := by
  intro f
  obtain ⟨n, e, p, pr, z, r, u, b, c⟩ := f
  refine ⟨?_, ?_, ?_, ?_⟩ <;>
  · cases r <;> cases u <;> cases c <;> cases b <;>
      simp [normalizeForm, normalizeSpec, strOr, beq_iff_eq]

/-- C9: an empty or absent phone is accepted with the phone defaulted to
the empty string, and a nonempty trimmed phone is accepted exactly when it
matches the E.164 pattern, so +18885551234 passes and 8885551234 is
rejected with InvalidPhone. -/
theorem phone_validation_rule :
    (∀ p : String,
      validateLead (phoneForm p) =
        (if jsTrim p == "" then .ok (phoneLead "")
         else if e164Match (jsTrim p) then .ok (phoneLead (jsTrim p))
         else .error .invalidPhone)) ∧
    validateLead (phoneForm "") = .ok (phoneLead "") ∧
    validateLead (phoneForm "+18885551234") = .ok (phoneLead "+18885551234") ∧
    validateLead (phoneForm "8885551234") = .error .invalidPhone := by
  refine ⟨fun p => ?_, by decide, by decide, by decide⟩
  have hnorm : normalizeForm (phoneForm p) =
      { name := "Jane Doe", email := "jane@example.com", rawPhone := jsTrim p
        project := "remodel kitchen", zip := "06119", readyToHire := true
        urgent := false, rawBudget := "", budgetDigits := "", budgetNumber := none
        consent := true } := rfl
  show validateNorm (normalizeForm (phoneForm p)) = _
  rw [hnorm]
  by_cases hp : jsTrim p = ""
  · simp +decide [validateNorm, phoneLead, baseLead, beq_iff_eq, hp]
  · by_cases he : e164Match (jsTrim p) = true
    · simp +decide [validateNorm, phoneLead, baseLead, beq_iff_eq, hp, he]
    · simp +decide [validateNorm, beq_iff_eq, hp, he]

/-- C7: budget normalization keeps exactly the digit characters of the
trimmed budget text and parses them as a non-negative integer; 2,500
parses to 2500, the empty text is an explicitly absent budget and not an
error, and nonempty text with no digits is rejected with InvalidBudget. -/
theorem budget_normalization_cases :
    (∀ b : String,
      validateLead (budgetForm b) =
        (if jsTrim b == "" then .ok (budgetLead none)
         else if digitsOnly (jsTrim b) == "" then .error .invalidBudget
         else .ok (budgetLead (some (parseDigits (digitsOnly (jsTrim b))))))) ∧
    validateLead (budgetForm "2,500") = .ok (budgetLead (some 2500)) ∧
    validateLead (budgetForm "") = .ok (budgetLead none) ∧
    validateLead (budgetForm "abc") = .error .invalidBudget := by
  refine ⟨fun b => ?_, by decide, by decide, by decide⟩
  have hnorm : normalizeForm (budgetForm b) =
      { name := "Jane Doe", email := "jane@example.com", rawPhone := ""
        project := "remodel kitchen", zip := "06119", readyToHire := true
        urgent := false, rawBudget := jsTrim b
        budgetDigits := if jsTrim b != "" then digitsOnly (jsTrim b) else ""
        budgetNumber :=
          if (if jsTrim b != "" then digitsOnly (jsTrim b) else "") != "" then
            some (parseDigits (if jsTrim b != "" then digitsOnly (jsTrim b) else ""))
          else none
        consent := true } := rfl
  show validateNorm (normalizeForm (budgetForm b)) = _
  rw [hnorm]
  by_cases hb : jsTrim b = ""
  · simp +decide [validateNorm, budgetLead, baseLead, beq_iff_eq, hb]
  · by_cases hd : digitsOnly (jsTrim b) = ""
    · simp +decide [validateNorm, beq_iff_eq, hb, hd]
    · simp +decide [validateNorm, budgetLead, baseLead, beq_iff_eq, hb, hd]

/-- C5: the geocoder surfaces its four failure modes as distinct errors
and never defaults a result: an unset credential fails before any request
is sent, a non-success HTTP response fails with the status code, a non-OK
upstream status or an empty result list fails with the upstream status
string, and a first result without numeric coordinates fails instead of
yielding zeroed coordinates. -/
theorem geocoder_failure_modes :
    (∀ net : FetchResp, geocodeZipWithGoogle none net = (false, .error .missingKey)) ∧
    (∀ (k : String) (net : FetchResp), k ≠ "" → net.ok = false →
      geocodeZipWithGoogle (some k) net = (true, .error (.httpError net.status))) ∧
    (∀ (k : String) (net : FetchResp), k ≠ "" → net.ok = true →
      net.body.status ≠ "OK" ∨ net.body.results = [] →
      (geocodeZipWithGoogle (some k) net).2 = .error (.lookupFailed net.body.status)) ∧
    (∀ (k : String) (net : FetchResp) (r : GeoApiResult) (rest : List GeoApiResult),
      k ≠ "" → net.ok = true → net.body.status = "OK" →
      net.body.results = r :: rest →
      (match r.geometry.bind (fun g => g.location) with
        | none => True
        | some loc => loc.lat = none ∨ loc.lng = none) →
      (geocodeZipWithGoogle (some k) net).2 = .error .invalidLatLng) := by
  refine ⟨fun net => rfl, ?_, ?_, ?_⟩
  · intro k net hk hok
    simp [geocodeZipWithGoogle, strOr, beq_iff_eq, hk, hok]
  · intro k net hk hok h
    rcases h with hs | hr
    · simp [geocodeZipWithGoogle, strOr, beq_iff_eq, hk, hok, hs]
    · by_cases hst : net.body.status = "OK" <;>
        simp [geocodeZipWithGoogle, strOr, beq_iff_eq, hk, hok, hr, hst]
  · intro k net r rest hk hok hst hres hloc
    cases hbind : r.geometry.bind (fun g => g.location) with
    | none =>
      simp [geocodeZipWithGoogle, strOr, beq_iff_eq, hk, hok, hst, hres, hbind]
    | some loc =>
      rw [hbind] at hloc
      obtain ⟨la, lo⟩ := loc
      rcases hloc with h | h <;>
        simp only [] at h <;>
        simp [geocodeZipWithGoogle, strOr, beq_iff_eq, hk, hok, hst, hres, hbind, h]

/-- Witness for C5: each failure mode exercised on a concrete response. -/
theorem geocoder_failure_modes_witness :
    geocodeZipWithGoogle none sampleNet = (false, .error .missingKey) ∧
    geocodeZipWithGoogle (some "KEY") { sampleNet with ok := false, status := 500 } =
      (true, .error (.httpError 500)) ∧
    (geocodeZipWithGoogle (some "KEY") emptyNet).2 = .error (.lookupFailed "ZERO_RESULTS") ∧
    (geocodeZipWithGoogle (some "KEY") badCoordNet).2 = .error .invalidLatLng := by
  refine ⟨geocoder_failure_modes.1 sampleNet,
    geocoder_failure_modes.2.1 "KEY" _ (by decide) rfl,
    geocoder_failure_modes.2.2.1 "KEY" emptyNet (by decide) rfl (Or.inr rfl),
    geocoder_failure_modes.2.2.2 "KEY" badCoordNet _ [] (by decide) rfl rfl rfl ?_⟩
  exact Or.inl rfl

/-- C1: once a submission validates, a successful geocode plus a
successful atomic commit writes exactly one PublicUserInfo document and
one UserLocation document, both carrying the one freshly allocated
identifier; a geocode failure or a commit failure writes neither document
and answers the generic 500 retry response. -/
theorem lead_pipeline_atomic_dual_write :
    ∀ (f : RawForm) (v : ValidLead) (key : Option String) (net : FetchResp)
      (uid : String) (commitOk : Bool),
      validateLead f = .ok v →
      ((∀ g : GeoResult, (geocodeZipWithGoogle key net).2 = .ok g → commitOk = true →
        leadHandler f key net uid commitOk =
          (.success v.zip, [(uid, publicPayload uid v)], [(uid, locationPayload uid v g)]) ∧
        List.lookup "publicUserUID" (publicPayload uid v) = some (.str uid) ∧
        List.lookup "uid" (locationPayload uid v g) = some (.str uid)) ∧
       (∀ e : GeoErr, (geocodeZipWithGoogle key net).2 = .error e →
        leadHandler f key net uid commitOk = (.serverError, [], []) ∧
        statusOf (leadHandler f key net uid commitOk).1 = 500) ∧
       (commitOk = false →
        leadHandler f key net uid commitOk = (.serverError, [], []) ∧
        statusOf (leadHandler f key net uid commitOk).1 = 500)) := by
  intro f v key net uid commitOk hval
  refine ⟨?_, ?_, ?_⟩
  · intro g hg hc
    exact ⟨by simp [leadHandler, hval, hg, hc], rfl, rfl⟩
  · intro e he
    simp [leadHandler, hval, he, statusOf]
  · intro hc
    cases hgeo : (geocodeZipWithGoogle key net).2 with
    | error e => simp [leadHandler, hval, hgeo, statusOf]
    | ok g => simp [leadHandler, hval, hgeo, hc, statusOf]

/-- Witness for C1: the full pipeline on a concrete valid submission, a
concrete successful geocode, and each failure leg. -/
theorem lead_pipeline_atomic_dual_write_witness :
    leadHandler baseForm (some "KEY") sampleNet "uid1" true =
      (.success "06119", [("uid1", publicPayload "uid1" baseLead)],
       [("uid1", locationPayload "uid1" baseLead sampleGeo)]) ∧
    leadHandler baseForm none sampleNet "uid1" true = (.serverError, [], []) ∧
    leadHandler baseForm (some "KEY") sampleNet "uid1" false = (.serverError, [], []) := by
  have h1 := lead_pipeline_atomic_dual_write baseForm baseLead (some "KEY") sampleNet
    "uid1" true (by decide)
  have h2 := lead_pipeline_atomic_dual_write baseForm baseLead none sampleNet
    "uid1" true (by decide)
  have h3 := lead_pipeline_atomic_dual_write baseForm baseLead (some "KEY") sampleNet
    "uid1" false (by decide)
  exact ⟨(h1.1 sampleGeo (by decide) rfl).1, (h2.2.1 .missingKey (by decide)).1,
    (h3.2.2 rfl).1⟩

/-- Counterexample for C4 as frozen: in the second reference variant the
PublicUserRecord of a submission with no budget does contain a budget
field, stored as an explicit null. -/
theorem budget_null_field_cex :
    List.lookup "budgetText" (publicPayloadAlt "u1" (budgetLead none)) = some JVal.nullv ∧
    List.lookup "budgetText" (publicPayloadAlt "u1" (budgetLead none)) ≠ none := by
  decide

/-- C4 amended: the server.js persister omits the budget field entirely
when no budget was provided and stores the parsed number when one was,
while the second reference variant always writes the field, null when the
budget is absent. -/
theorem budget_field_omission_amended :
    (∀ (uid : String) (v : ValidLead), v.budget = none →
      List.lookup "budgetText" (publicPayload uid v) = none) ∧
    (∀ (uid : String) (v : ValidLead) (b : Nat), v.budget = some b →
      List.lookup "budgetText" (publicPayload uid v) = some (.num b)) ∧
    (∀ (uid : String) (v : ValidLead), v.budget = none →
      List.lookup "budgetText" (publicPayloadAlt uid v) = some .nullv) ∧
    (∀ (uid : String) (v : ValidLead) (b : Nat), v.budget = some b →
      List.lookup "budgetText" (publicPayloadAlt uid v) = some (.num b)) := by
  refine ⟨?_, ?_, ?_, ?_⟩
  · intro uid v h
    simp +decide [publicPayload, List.lookup, h]
  · intro uid v b h
    simp +decide [publicPayload, List.lookup, h]
  · intro uid v h
    simp +decide [publicPayloadAlt, List.lookup, h]
  · intro uid v b h
    simp +decide [publicPayloadAlt, List.lookup, h]

/-- Witness for the amended C4 at a concrete identifier and lead. -/
theorem budget_field_omission_amended_witness :
    List.lookup "budgetText" (publicPayload "u1" (budgetLead none)) = none ∧
    List.lookup "budgetText" (publicPayload "u1" (budgetLead (some 2500))) =
      some (.num 2500) ∧
    List.lookup "budgetText" (publicPayloadAlt "u1" (budgetLead none)) = some .nullv ∧
    List.lookup "budgetText" (publicPayloadAlt "u1" (budgetLead (some 2500))) =
      some (.num 2500) :=
  ⟨budget_field_omission_amended.1 "u1" _ rfl,
   budget_field_omission_amended.2.1 "u1" _ 2500 rfl,
   budget_field_omission_amended.2.2.1 "u1" _ rfl,
   budget_field_omission_amended.2.2.2 "u1" _ 2500 rfl⟩

/-- The intent constant of /go evaluated to its literal form. -/
lemma andIntent_eval :
    andIntent =
      "intent://details?id=com.hoyalist.hoyalist#Intent;scheme=market;package=com.android.vending;S.browser_fallback_url=https%3A%2F%2Fplay.google.com%2Fstore%2Fapps%2Fdetails%3Fid%3Dcom.hoyalist.hoyalist;end;" := by
  decide

/-- C6: the /go resolver is a pure function of the user agent that checks
the Android token first, then the iOS tokens, else the fallback; Android
gets the store intent deep link outside in-app browsers and the plain Play
Store HTTPS URL inside one, iOS analogously gets the itms scheme or the
HTTPS store page, and a desktop user agent gets the fallback. -/
theorem go_redirect_resolver_table :
    (∀ ua : String,
      goRedirect ua =
        (if isAndroidUA (jsLower ua) then
          (if isInAppUA (jsLower ua) then
            "https://play.google.com/store/apps/details?id=com.hoyalist.hoyalist"
          else
            "intent://details?id=com.hoyalist.hoyalist#Intent;scheme=market;package=com.android.vending;S.browser_fallback_url=https%3A%2F%2Fplay.google.com%2Fstore%2Fapps%2Fdetails%3Fid%3Dcom.hoyalist.hoyalist;end;")
        else if isIOSUA (jsLower ua) then
          (if isInAppUA (jsLower ua) then
            "https://apps.apple.com/us/app/hoyalist/id6740706168"
          else "itms-apps://itunes.apple.com/app/id6740706168")
        else "/homeowners")) ∧
    goRedirect "Mozilla/5.0 (Linux; Android 13) Chrome Mobile Safari" =
      "intent://details?id=com.hoyalist.hoyalist#Intent;scheme=market;package=com.android.vending;S.browser_fallback_url=https%3A%2F%2Fplay.google.com%2Fstore%2Fapps%2Fdetails%3Fid%3Dcom.hoyalist.hoyalist;end;" ∧
    goRedirect "Mozilla/5.0 (Linux; Android 13) [FBAN/FB4A;]" =
      "https://play.google.com/store/apps/details?id=com.hoyalist.hoyalist" ∧
    goRedirect "Mozilla/5.0 (iPhone; CPU iPhone OS 17_0) Safari" =
      "itms-apps://itunes.apple.com/app/id6740706168" ∧
    goRedirect "Mozilla/5.0 (iPhone; CPU iPhone OS 17_0) [FBAN/FB4A;]" =
      "https://apps.apple.com/us/app/hoyalist/id6740706168" ∧
    goRedirect "Mozilla/5.0 (Windows NT 10.0; Win64; x64) Chrome/120" = "/homeowners" := by
  refine ⟨fun ua => ?_, by decide, by decide, by decide, by decide, by decide⟩
  by_cases ha : isAndroidUA (jsLower ua) = true <;>
  by_cases hi : isIOSUA (jsLower ua) = true <;>
  by_cases hin : isInAppUA (jsLower ua) = true <;>
  simp +decide [goRedirect, andIntent_eval, andHttps, iosHttps, iosItms, pkgId,
    ha, hi, hin]

/-- An overwrite fold keeps the value of the last matching element: it
equals the first match in the reversed list, or the start value. -/
lemma foldl_overwrite (p : AddrComp → Bool) (f : AddrComp → String) :
    ∀ (comps : List AddrComp) (a : String),
      comps.foldl (fun t c => if p c then f c else t) a =
        (match comps.reverse.find? p with
         | some c => f c
         | none => a) := by
  intro comps
  induction comps with
  | nil => intro a; rfl
  | cons c cs ih =>
    intro a
    rw [List.foldl_cons, ih, List.reverse_cons, List.find?_append]
    cases hf : cs.reverse.find? p with
    | some d => simp [Option.or]
    | none =>
      by_cases hp : p c = true <;> simp [Option.or, List.find?, hp]

/-- A fold of a pair of independent overwrite steps is the pair of the
component folds. -/
lemma foldl_pair_overwrite (p q : AddrComp → Bool) (f g : AddrComp → String) :
    ∀ (comps : List AddrComp) (a b : String),
      comps.foldl
        (fun acc c => ((if p c then f c else acc.1), (if q c then g c else acc.2)))
        (a, b) =
      (comps.foldl (fun t c => if p c then f c else t) a,
       comps.foldl (fun t c => if q c then g c else t) b) := by
  intro comps
  induction comps with
  | nil => intro a b; rfl
  | cons c cs ih =>
    intro a b
    simp only [List.foldl_cons]
    rw [ih]

/-- The first scan loop in terms of the last-match helpers. -/
lemma scanTownState_eq (comps : List AddrComp) :
    scanTownState comps =
      (lastLongNameTyped "locality" comps,
       lastShortNameTyped "administrative_area_level_1" comps) := by
  unfold scanTownState lastLongNameTyped lastShortNameTyped
  rw [show (fun (acc : String × String) (c : AddrComp) =>
        let ts := c.types.getD []
        ((if ts.contains "locality" then c.long_name else acc.1),
         (if ts.contains "administrative_area_level_1" then c.short_name else acc.2))) =
      (fun (acc : String × String) (c : AddrComp) =>
        ((if (c.types.getD []).contains "locality" then c.long_name else acc.1),
         (if (c.types.getD []).contains "administrative_area_level_1" then
            c.short_name else acc.2))) from rfl]
  rw [foldl_pair_overwrite, foldl_overwrite, foldl_overwrite]

/-- The fallback loop in terms of the last-match helper. -/
lemma scanPostalTown_eq (comps : List AddrComp) :
    scanPostalTown comps = lastLongNameTyped "postal_town" comps := by
  unfold scanPostalTown lastLongNameTyped
  rw [foldl_overwrite]

/-- Extraction in closed form: the last locality long name when it is
nonempty, otherwise the last postal town long name; the state is the last
administrative-area short name. -/
lemma extractTownState_eq (comps : List AddrComp) :
    extractTownState comps =
      ((if lastLongNameTyped "locality" comps == "" then
          lastLongNameTyped "postal_town" comps
        else lastLongNameTyped "locality" comps),
       lastShortNameTyped "administrative_area_level_1" comps) := by
  unfold extractTownState
  rw [scanTownState_eq, scanPostalTown_eq]

/-- When no component carries the type, the last-match helper is empty. -/
lemma lastLongNameTyped_nil (ty : String) (comps : List AddrComp)
    (h : ∀ c ∈ comps, ((c.types.getD []).contains ty) = false) :
    lastLongNameTyped ty comps = "" := by
  unfold lastLongNameTyped
  rw [List.find?_eq_none.mpr (fun c hc => by
    have hcc := h c (List.mem_reverse.mp hc)
    simpa using hcc)]

/-- Counterexample for C8 as frozen: on a result whose locality component
has an empty long name next to a named postal town, the geocoder returns
the postal town name even though a locality component exists and no
locality component carries that name. -/
theorem town_locality_fallback_cex :
    (geocodeZipWithGoogle (some "KEY") cexNet).2 =
      .ok { latitude := 41, longitude := 1, userTown := "York", userState := "" } ∧
    (cexComps.any fun c => (c.types.getD []).contains "locality") = true ∧
    (cexComps.all fun c =>
      !((c.types.getD []).contains "locality") || (c.long_name != "York")) = true := by
  decide

/-- C8 amended: for every successful lookup, the state is the short name
of the last administrative_area_level_1 component; the town is the long
name of the last locality component when that is nonempty, and otherwise
falls back to the long name of the last postal_town component (so in
particular when no locality component exists); when neither type matches
anything, the town is the empty string and the lookup still succeeds. -/
theorem town_state_extraction_amended :
    ∀ (k : String) (net : FetchResp) (r : GeoApiResult) (rest : List GeoApiResult)
      (la lo : Int),
      k ≠ "" → net.ok = true → net.body.status = "OK" →
      net.body.results = r :: rest →
      r.geometry.bind (fun g => g.location) = some { lat := some la, lng := some lo } →
      ((geocodeZipWithGoogle (some k) net).2 =
        .ok { latitude := la, longitude := lo
              userTown :=
                if lastLongNameTyped "locality" (r.address_components.getD []) == "" then
                  lastLongNameTyped "postal_town" (r.address_components.getD [])
                else lastLongNameTyped "locality" (r.address_components.getD [])
              userState :=
                lastShortNameTyped "administrative_area_level_1"
                  (r.address_components.getD []) } ∧
       ((∀ c ∈ r.address_components.getD [],
           ((c.types.getD []).contains "locality") = false) →
         lastLongNameTyped "locality" (r.address_components.getD []) = "") ∧
       ((∀ c ∈ r.address_components.getD [],
           ((c.types.getD []).contains "postal_town") = false) →
         lastLongNameTyped "postal_town" (r.address_components.getD []) = "")) := by
  intro k net r rest la lo hk hok hst hres hbind
  refine ⟨?_, fun h => lastLongNameTyped_nil _ _ h, fun h => lastLongNameTyped_nil _ _ h⟩
  simp [geocodeZipWithGoogle, strOr, beq_iff_eq, hk, hok, hst, hres, hbind,
    extractTownState_eq]

/-- Witness for the amended C8: a lookup whose result has no town or
region components still succeeds, with an empty town and state. -/
theorem town_state_extraction_amended_witness :
    (geocodeZipWithGoogle (some "KEY") bareNet).2 =
      .ok { latitude := 5, longitude := 6, userTown := "", userState := "" } ∧
    lastLongNameTyped "locality" ([] : List AddrComp) = "" ∧
    lastLongNameTyped "postal_town" ([] : List AddrComp) = "" := by
  have h := town_state_extraction_amended "KEY" bareNet _ [] 5 6 (by decide) rfl rfl rfl rfl
  exact ⟨h.1, h.2.1 (by simp), h.2.2 (by simp)⟩

/-- takeWhile of a list that starts with satisfying elements followed by a
failing element returns exactly the satisfying prefix. -/
lemma takeWhile_all_append {p : Char → Bool} (y : Char) (ys : List Char)
    (hy : p y = false) :
    ∀ xs : List Char, (∀ x ∈ xs, p x = true) →
      (xs ++ y :: ys).takeWhile p = xs := by
  intro xs
  induction xs with
  | nil => intro _; simp [List.takeWhile_cons, hy]
  | cons a as ih =>
    intro h
    have ha := h a (List.mem_cons_self a as)
    simp only [List.cons_append, List.takeWhile_cons, ha, if_true]
    rw [ih (fun x hx => h x (List.mem_cons_of_mem a hx))]

/-- Structure of an email match: there is a position i holding the one and
only at sign and a position j past it holding a dot with at least two
characters after it. -/
lemma emailRegexMatch_structure {l : List Char} (h : emailRegexMatch l = true) :
    ∃ i j, l.get? i = some '@' ∧ (∀ m, l.get? m = some '@' → m = i) ∧
      l.get? j = some '.' ∧ i < j ∧ j + 3 ≤ l.length := by
  unfold emailRegexMatch at h
  rw [List.any_eq_true] at h
  obtain ⟨i, _, h⟩ := h
  rw [List.any_eq_true] at h
  obtain ⟨j, _, h⟩ := h
  simp only [Bool.and_eq_true, decide_eq_true_eq, beq_iff_eq, List.all_eq_true] at h
  obtain ⟨⟨⟨⟨⟨⟨⟨h1i, h2ij⟩, h3j⟩, hat⟩, hdot⟩, hA⟩, hB⟩, hC⟩ := h
  refine ⟨i, j, hat, ?_, hdot, by omega, h3j⟩
  intro m hm
  by_contra hne
  rcases Nat.lt_or_ge m i with hlt | hge
  · have hmem : '@' ∈ l.take i := by
      refine List.get?_mem (n := m) ?_
      rw [List.get?_eq_getElem?] at hm ⊢
      rw [List.getElem?_take_of_lt hlt]
      exact hm
    have hx := hA _ hmem
    simp [notSpAt] at hx
  · have hgt : i < m := by omega
    rcases Nat.lt_trichotomy m j with hmj | hmj | hmj
    · have hmem : '@' ∈ (l.drop (i + 1)).take (j - i - 1) := by
        refine List.get?_mem (n := m - i - 1) ?_
        rw [List.get?_eq_getElem?] at hm ⊢
        rw [List.getElem?_take_of_lt (by omega), List.getElem?_drop]
        rw [show i + 1 + (m - i - 1) = m by omega]
        exact hm
      have hx := hB _ hmem
      simp [notSpAt] at hx
    · rw [hmj] at hm
      rw [hm] at hdot
      exact absurd hdot (by decide)
    · have hmem : '@' ∈ l.drop (j + 1) := by
        refine List.get?_mem (n := m - j - 1) ?_
        rw [List.get?_eq_getElem?] at hm ⊢
        rw [List.getElem?_drop]
        rw [show j + 1 + (m - j - 1) = m by omega]
        exact hm
      have hx := hC _ hmem
      simp [notSpAt] at hx

/-- When the at sign at position i is the only one, the domain part is
exactly the characters after position i. -/
lemma domainAfterLastAt_eq {l : List Char} {i : Nat}
    (hi : l.get? i = some '@') (huniq : ∀ m, l.get? m = some '@' → m = i) :
    domainAfterLastAt l = l.drop (i + 1) := by
  have hlen : i < l.length := by
    rw [List.get?_eq_getElem?] at hi
    exact (List.getElem?_eq_some.mp hi).1
  have hsplit : l = l.take i ++ '@' :: l.drop (i + 1) := by
    conv_lhs => rw [← List.take_append_drop i l]
    congr 1
    rw [List.drop_eq_getElem_cons hlen]
    congr 1
    have := hi
    rw [List.get?_eq_getElem?, List.getElem?_eq_some] at this
    obtain ⟨_, hv⟩ := this
    exact hv
  have hnone : ∀ x ∈ (l.drop (i + 1)).reverse, (x != '@') = true := by
    intro x hx
    rw [bne_iff_ne]
    intro heq
    subst heq
    obtain ⟨m, hm⟩ := List.get?_of_mem (List.mem_reverse.mp hx)
    have : l.get? (i + 1 + m) = some '@' := by
      rw [List.get?_eq_getElem?] at hm ⊢
      rw [List.getElem?_drop] at hm
      exact hm
    have := huniq _ this
    omega
  unfold domainAfterLastAt
  conv_lhs => rw [hsplit]
  rw [List.reverse_append, List.reverse_cons, List.append_assoc, List.singleton_append]
  rw [takeWhile_all_append '@' _ (by decide) _ hnone]
  rw [List.reverse_reverse]

/-- An email with no at sign fails the pattern. -/
lemma noAt_no_match {l : List Char} (h : noAtSign l = true) :
    emailRegexMatch l = false := by
  cases hm : emailRegexMatch l with
  | false => rfl
  | true =>
    exfalso
    obtain ⟨i, _, hat, _, _, _, _⟩ := emailRegexMatch_structure hm
    have : '@' ∈ l := List.get?_mem hat
    unfold noAtSign at h
    simp [this] at h

/-- An email whose domain part has no dot fails the pattern. -/
lemma noDomainDot_no_match {l : List Char} (h : noDomainDot l = true) :
    emailRegexMatch l = false := by
  cases hm : emailRegexMatch l with
  | false => rfl
  | true =>
    exfalso
    obtain ⟨i, j, hat, huniq, hdot, hij, hj3⟩ := emailRegexMatch_structure hm
    unfold noDomainDot at h
    rw [Bool.and_eq_true] at h
    have hdom := domainAfterLastAt_eq hat huniq
    have hmem : '.' ∈ domainAfterLastAt l := by
      rw [hdom]
      refine List.get?_mem (n := j - i - 1) ?_
      rw [List.get?_eq_getElem?, List.getElem?_drop]
      rw [show i + 1 + (j - i - 1) = j by omega]
      rw [← List.get?_eq_getElem?]
      exact hdot
    have h2 := h.2
    simp [hmem] at h2

/-- An email in whose domain part every dot is followed by fewer than two
characters fails the pattern. -/
lemma allDotsShort_no_match {l : List Char} (h : allDomainDotsShort l = true) :
    emailRegexMatch l = false := by
  cases hm : emailRegexMatch l with
  | false => rfl
  | true =>
    exfalso
    obtain ⟨i, j, hat, huniq, hdot, hij, hj3⟩ := emailRegexMatch_structure hm
    unfold allDomainDotsShort at h
    rw [Bool.and_eq_true] at h
    have hdom := domainAfterLastAt_eq hat huniq
    have hjlen : i < l.length := by
      rw [List.get?_eq_getElem?] at hat
      exact (List.getElem?_eq_some.mp hat).1
    have hget : (domainAfterLastAt l).get? (j - i - 1) = some '.' := by
      rw [hdom, List.get?_eq_getElem?, List.getElem?_drop]
      rw [show i + 1 + (j - i - 1) = j by omega]
      rw [← List.get?_eq_getElem?]
      exact hdot
    have hlend : (domainAfterLastAt l).length = l.length - (i + 1) := by
      rw [hdom, List.length_drop]
    have h2 := h.2
    rw [List.all_eq_true] at h2
    have hj' : (j - i - 1) ∈ List.range (domainAfterLastAt l).length := by
      rw [List.mem_range, hlend]
      omega
    have hx := h2 _ hj'
    rw [Bool.or_eq_true] at hx
    rcases hx with hx | hx
    · rw [hget] at hx
      simp at hx
    · rw [decide_eq_true_eq, hlend] at hx
      omega

/-- Counterexample for C3 as frozen: the email a@b.c.d has fewer than two
characters after its final dot, yet it passes the implemented pattern and
an otherwise-complete submission carrying it is accepted, not rejected
with InvalidEmail. -/
theorem invalid_email_final_dot_cex :
    shortFinalDot ((jsLower (jsTrim "a@b.c.d")).toList) = true ∧
    isValidEmail (jsLower (jsTrim "a@b.c.d")) = true ∧
    validateLead (emailForm "a@b.c.d") = .ok (emailLead "a@b.c.d") := by
  decide

/-- C3 amended: on an otherwise-complete submission, validation reports
InvalidEmail exactly when the trimmed lower-cased email fails the
implemented pattern, and every email that has no at sign, or has an at
sign but no dot in the domain part, or has an at sign and no dot of the
domain part followed by at least two characters, fails that pattern. -/
theorem email_validation_pattern_amended :
    ∀ e : String,
      (jsLower (jsTrim e) ≠ "" →
        (validateLead (emailForm e) = .error .invalidEmail ↔
          isValidEmail (jsLower (jsTrim e)) = false)) ∧
      (noAtSign (jsLower (jsTrim e)).toList = true ∨
        noDomainDot (jsLower (jsTrim e)).toList = true ∨
        allDomainDotsShort (jsLower (jsTrim e)).toList = true →
        isValidEmail (jsLower (jsTrim e)) = false) := by
  intro e
  constructor
  · intro he
    have hnorm : normalizeForm (emailForm e) =
        { name := "Jane Doe", email := jsLower (jsTrim e), rawPhone := ""
          project := "remodel kitchen", zip := "06119", readyToHire := true
          urgent := false, rawBudget := "", budgetDigits := "", budgetNumber := none
          consent := true } := rfl
    show validateNorm (normalizeForm (emailForm e)) = _ ↔ _
    rw [hnorm]
    by_cases hv : isValidEmail (jsLower (jsTrim e)) = true
    · simp +decide [validateNorm, he, hv]
    · simp +decide [validateNorm, he, hv]
  · rintro (h | h | h)
    · exact noAt_no_match h
    · exact noDomainDot_no_match h
    · exact allDotsShort_no_match h

/-- Witness for the amended C3: a concrete email with no at sign is
rejected as InvalidEmail through the theorem. -/
theorem email_validation_pattern_amended_witness :
    validateLead (emailForm "nodomain") = .error .invalidEmail ∧
    noAtSign ((jsLower (jsTrim "nodomain")).toList) = true := by
  have h := email_validation_pattern_amended "nodomain"
  have hbad := h.2 (Or.inl (by decide))
  exact ⟨(h.1 (by decide)).mpr hbad, by decide⟩

end HoyaList
